import Mathlib

/-!
Verification of the tuic client core: the UDP packet fragmentation engine
(`src/tuic/src/prototype/packet.rs`), the stream wrapper
(`src/src/client/stream.rs`) and the command-line configuration parsing
(`src/client/src/config.rs`), embedded shallowly.

Machine integers are modelled as `Nat` with explicit `% 2^w` where the Rust
code performs a truncating cast (`as u8`, `as u16`).  A `usize` subtraction
that would underflow panics in Rust; it is modelled by `checkedSub`, and every
fallible computation returns an `Option` whose `none` stands for a panic.
-/

namespace Tuic

/-- Modelled from the spec: the `Address` type of the protocol module, which is
not part of the given sources (only its callers in `packet.rs` are).  A tagged
value representing an absent, domain-name, or socket (IPv4/IPv6) target
address.  Bytes are modelled as `Nat`. -/
inductive Address where
  | none
  | domain (name : List Nat) (port : Nat)
  | socket4 (a b c d : Nat) (port : Nat)
  | socket6 (ip : List Nat) (port : Nat)
deriving DecidableEq

/-- Modelled from the spec: `Address::len`.  One type tag byte, then: nothing
for `None`; one length byte, the name bytes and a two-byte port for a domain
address; the 4 or 16 IP bytes and a two-byte port for a socket address. -/
def Address.len : Address → Nat
  | Address.none => 1
  | Address.domain name _ => 1 + 1 + name.length + 2
  | Address.socket4 _ _ _ _ _ => 1 + 4 + 2
  | Address.socket6 _ _ => 1 + 16 + 2

/-- Modelled from the spec: `Address::take`, a destructive read that returns
the stored address and leaves `Address::None` in its place. -/
def Address.take (a : Address) : Address × Address := (a, Address.none)

theorem Address.one_le_len (a : Address) : 1 ≤ a.len := by
  cases a <;> simp [Address.len]

/-- The packet header of the wire protocol: `protocol::Packet`.  Field widths
on the wire are u16, u16, u8, u8, u16 and the embedded address. -/
structure PacketHeader where
  assoc_id : Nat
  pkt_id : Nat
  frag_total : Nat
  frag_id : Nat
  size : Nat
  addr : Address
deriving DecidableEq

/-- Modelled from the spec: `Packet::len_without_addr()`, the fixed byte length
of all non-address fields (two u16 + two u8 + one u16 = 8 bytes). -/
def PacketHeader.len_without_addr : Nat := 8

/-- The connect header of the wire protocol: `protocol::Connect`. -/
structure ConnectHeader where
  addr : Address
deriving DecidableEq

/-- `protocol::Header`: either a connect header or a packet header. -/
inductive Header where
  | connect (c : ConnectHeader)
  | packet (p : PacketHeader)
deriving DecidableEq

/-- Rust `usize` subtraction: panics (here `none`) on underflow. -/
def checkedSub (a b : Nat) : Option Nat :=
  if b ≤ a then some (a - b) else none

/-- The state of the `Fragment` iterator of `prototype/packet.rs`. -/
structure Fragment where
  assoc_id : Nat
  pkt_id : Nat
  addr : Address
  max_pkt_size : Nat
  frag_total : Nat
  next_frag_id : Nat
  next_frag_start : Nat
  payload : List Nat
deriving DecidableEq

/-- `Fragment::new`.  `first_frag_size` and `frag_size_addr_none` are `usize`
subtractions (panic on underflow, modelled by `checkedSub`); the division
panics when `frag_size_addr_none` is zero; the computed count is cast `as u8`,
i.e. reduced `% 256`. -/
def Fragment.new (assoc_id pkt_id : Nat) (addr : Address) (max_pkt_size : Nat)
    (payload : List Nat) : Option Fragment :=
  match checkedSub max_pkt_size PacketHeader.len_without_addr with
  | Option.none => Option.none
  | Option.some a =>
    match checkedSub a addr.len with
    | Option.none => Option.none
    | Option.some first_frag_size =>
      match checkedSub max_pkt_size PacketHeader.len_without_addr with
      | Option.none => Option.none
      | Option.some b =>
        match checkedSub b Address.none.len with
        | Option.none => Option.none
        | Option.some frag_size_addr_none =>
          if first_frag_size < payload.length then
            if frag_size_addr_none = 0 then Option.none
            else
              Option.some
                { assoc_id := assoc_id, pkt_id := pkt_id, addr := addr,
                  max_pkt_size := max_pkt_size,
                  frag_total :=
                    (1 + (payload.length - first_frag_size) / frag_size_addr_none + 1) % 256,
                  next_frag_id := 0, next_frag_start := 0, payload := payload }
          else
            Option.some
              { assoc_id := assoc_id, pkt_id := pkt_id, addr := addr,
                max_pkt_size := max_pkt_size, frag_total := 1,
                next_frag_id := 0, next_frag_start := 0, payload := payload }

/-- `<Fragment as Iterator>::next`.  The outer `Option` is absence of a panic
(the two `usize` subtractions and the slice `payload[start..end]`); the inner
`Option` is the iterator item.  The `size` field is cast `as u16`
(`% 65536`); the address is emitted via the destructive `Address::take`. -/
def Fragment.next (s : Fragment) : Option (Option (Header × List Nat) × Fragment) :=
  if s.next_frag_id < s.frag_total then
    match checkedSub s.max_pkt_size PacketHeader.len_without_addr with
    | Option.none => Option.none
    | Option.some a =>
      match checkedSub a s.addr.len with
      | Option.none => Option.none
      | Option.some payload_size =>
        let next_frag_end := min (s.next_frag_start + payload_size) s.payload.length
        match checkedSub next_frag_end s.next_frag_start with
        | Option.none => Option.none
        | Option.some sz =>
          let taken := s.addr.take
          Option.some
            (Option.some
              (Header.packet
                { assoc_id := s.assoc_id, pkt_id := s.pkt_id,
                  frag_total := s.frag_total, frag_id := s.next_frag_id,
                  size := sz % 65536, addr := taken.1 },
               (s.payload.drop s.next_frag_start).take sz),
             { s with addr := taken.2, next_frag_id := s.next_frag_id + 1,
                      next_frag_start := next_frag_end })
  else
    Option.some (Option.none, s)

/-- `<Fragment as ExactSizeIterator>::len`: the code returns the stored
`frag_total` unconditionally. -/
def Fragment.len (s : Fragment) : Nat := s.frag_total

/-- Drive the iterator by calling `next` up to `n` times, collecting the
yielded items; stops early when the iterator yields `None`; propagates a
panic (`none`). -/
def stepN : Nat → Fragment → Option (List (Header × List Nat) × Fragment)
  | 0, s => Option.some ([], s)
  | n + 1, s =>
    match s.next with
    | Option.none => Option.none
    | Option.some (Option.none, s') => Option.some ([], s')
    | Option.some (Option.some it, s') =>
      match stepN n s' with
      | Option.none => Option.none
      | Option.some (l, s2) => Option.some (it :: l, s2)

/-- The Tx payload of `prototype::packet::Packet<side::Tx>`. -/
structure PacketTx where
  assoc_id : Nat
  pkt_id : Nat
  addr : Address
  max_pkt_size : Nat
deriving DecidableEq

/-- `Packet::<side::Tx>::into_fragments`: hands the Tx fields and the borrowed
payload to `Fragment::new`. -/
def PacketTx.into_fragments (t : PacketTx) (payload : List Nat) : Option Fragment :=
  Fragment.new t.assoc_id t.pkt_id t.addr t.max_pkt_size payload

/-- The value `Fragment::new` stores in `frag_total`, as a function of the
address, the budget and the payload length (mirrors the branch structure of
the source; helper for the lemmas below). -/
def fragTotalVal (addr : Address) (max_pkt_size payloadLen : Nat) : Nat :=
  if max_pkt_size - PacketHeader.len_without_addr - addr.len < payloadLen then
    (1 + (payloadLen - (max_pkt_size - PacketHeader.len_without_addr - addr.len)) /
        (max_pkt_size - PacketHeader.len_without_addr - Address.none.len) + 1) % 256
  else 1

theorem Fragment.new_eq (assoc_id pkt_id : Nat) (addr : Address) (max_pkt_size : Nat)
    (payload : List Nat)
    (hpre : PacketHeader.len_without_addr + addr.len + 1 ≤ max_pkt_size) :
    Fragment.new assoc_id pkt_id addr max_pkt_size payload =
      some { assoc_id := assoc_id, pkt_id := pkt_id, addr := addr,
             max_pkt_size := max_pkt_size,
             frag_total := fragTotalVal addr max_pkt_size payload.length,
             next_frag_id := 0, next_frag_start := 0, payload := payload } := by
  have hlen := addr.one_le_len
  simp only [PacketHeader.len_without_addr] at hpre
  have h1 : checkedSub max_pkt_size 8 = some (max_pkt_size - 8) := by
    unfold checkedSub
    rw [if_pos (by omega)]
  have h2 : checkedSub (max_pkt_size - 8) addr.len
      = some (max_pkt_size - 8 - addr.len) := by
    unfold checkedSub
    rw [if_pos (by omega)]
  have h4 : checkedSub (max_pkt_size - 8) 1 = some (max_pkt_size - 8 - 1) := by
    unfold checkedSub
    rw [if_pos (by omega)]
  have hnone : Address.none.len = 1 := rfl
  unfold Fragment.new fragTotalVal
  simp only [PacketHeader.len_without_addr, hnone, h1, h2, h4]
  by_cases hc : max_pkt_size - 8 - addr.len < payload.length
  · rw [if_pos hc, if_pos hc, if_neg (by omega : ¬ max_pkt_size - 8 - 1 = 0)]
  · rw [if_neg hc, if_neg hc]

theorem Fragment.next_exhausted (s : Fragment) (h : ¬ s.next_frag_id < s.frag_total) :
    s.next = some (Option.none, s) := by
  unfold Fragment.next
  rw [if_neg h]

theorem stepN_exhausted (n : Nat) (s : Fragment) (h : s.frag_total ≤ s.next_frag_id) :
    stepN n s = some ([], s) := by
  cases n with
  | zero => rfl
  | succ n =>
    unfold stepN
    rw [Fragment.next_exhausted s (by omega)]

theorem Fragment.next_eq (s : Fragment)
    (hmax : 9 + s.addr.len ≤ s.max_pkt_size)
    (hstart : s.next_frag_start ≤ s.payload.length)
    (hid : s.next_frag_id < s.frag_total) :
    s.next = some (some
        (Header.packet
          { assoc_id := s.assoc_id, pkt_id := s.pkt_id, frag_total := s.frag_total,
            frag_id := s.next_frag_id,
            size := (min (s.next_frag_start + (s.max_pkt_size - 8 - s.addr.len))
                s.payload.length - s.next_frag_start) % 65536,
            addr := s.addr },
         (s.payload.drop s.next_frag_start).take
           (min (s.next_frag_start + (s.max_pkt_size - 8 - s.addr.len))
              s.payload.length - s.next_frag_start)),
       { s with addr := Address.none, next_frag_id := s.next_frag_id + 1,
                next_frag_start :=
                  min (s.next_frag_start + (s.max_pkt_size - 8 - s.addr.len))
                    s.payload.length }) := by
  have hlen := s.addr.one_le_len
  have h1 : checkedSub s.max_pkt_size PacketHeader.len_without_addr
      = some (s.max_pkt_size - 8) := by
    unfold checkedSub PacketHeader.len_without_addr
    rw [if_pos (by omega)]
  have h2 : checkedSub (s.max_pkt_size - 8) s.addr.len
      = some (s.max_pkt_size - 8 - s.addr.len) := by
    unfold checkedSub
    rw [if_pos (by omega)]
  have h3 : checkedSub
      (min (s.next_frag_start + (s.max_pkt_size - 8 - s.addr.len)) s.payload.length)
      s.next_frag_start
      = some (min (s.next_frag_start + (s.max_pkt_size - 8 - s.addr.len))
          s.payload.length - s.next_frag_start) := by
    unfold checkedSub
    rw [if_pos (le_min (Nat.le_add_right _ _) hstart)]
  unfold Fragment.next
  rw [if_pos hid]
  simp only [h1, h2, h3, Address.take]

/-- Driving the iterator never panics, and every item it yields is a packet
header whose `frag_total` is the stored total, whose `frag_id` counts up from
the current position and stays below the total, whose `size` field is the
slice length reduced `% 65536`, whose slice is bounded by the budget, and
whose address is the state's address on the first yielded item and
`Address::None` afterwards. -/
theorem stepN_items (n : Nat) : ∀ (s : Fragment),
    9 + s.addr.len ≤ s.max_pkt_size →
    s.next_frag_start ≤ s.payload.length →
    ∃ items s', stepN n s = some (items, s') ∧
      ∀ i, (h : i < items.length) →
        ∃ ph slice, items.get ⟨i, h⟩ = (Header.packet ph, slice) ∧
          ph.frag_total = s.frag_total ∧
          ph.frag_id = s.next_frag_id + i ∧
          ph.frag_id < s.frag_total ∧
          ph.size = slice.length % 65536 ∧
          slice.length + 9 ≤ s.max_pkt_size ∧
          ph.addr = (if i = 0 then s.addr else Address.none) := by
  induction n with
  | zero =>
    intro s _ _
    exact ⟨[], s, rfl, by intro i h; simp at h⟩
  | succ n ih =>
    intro s hmax hstart
    by_cases hid : s.next_frag_id < s.frag_total
    · have hnext := Fragment.next_eq s hmax hstart hid
      have hone := s.addr.one_le_len
      obtain ⟨items', s', hstep', hitems'⟩ :=
        ih { s with addr := Address.none, next_frag_id := s.next_frag_id + 1,
                    next_frag_start :=
                      min (s.next_frag_start + (s.max_pkt_size - 8 - s.addr.len))
                        s.payload.length }
          (by simp only [Address.len]; omega)
          (min_le_right _ _)
      have hendle : min (s.next_frag_start + (s.max_pkt_size - 8 - s.addr.len))
          s.payload.length ≤ s.payload.length := min_le_right _ _
      have hendub : min (s.next_frag_start + (s.max_pkt_size - 8 - s.addr.len))
          s.payload.length ≤ s.next_frag_start + (s.max_pkt_size - 8 - s.addr.len) :=
        min_le_left _ _
      have hslicelen :
          ((s.payload.drop s.next_frag_start).take
            (min (s.next_frag_start + (s.max_pkt_size - 8 - s.addr.len))
              s.payload.length - s.next_frag_start)).length
          = min (s.next_frag_start + (s.max_pkt_size - 8 - s.addr.len))
              s.payload.length - s.next_frag_start := by
        simp only [List.length_take, List.length_drop]
        omega
      refine ⟨(Header.packet
          { assoc_id := s.assoc_id, pkt_id := s.pkt_id, frag_total := s.frag_total,
            frag_id := s.next_frag_id,
            size := (min (s.next_frag_start + (s.max_pkt_size - 8 - s.addr.len))
                s.payload.length - s.next_frag_start) % 65536,
            addr := s.addr },
          (s.payload.drop s.next_frag_start).take
            (min (s.next_frag_start + (s.max_pkt_size - 8 - s.addr.len))
              s.payload.length - s.next_frag_start)) :: items', s', ?_, ?_⟩
      · unfold stepN
        simp only [hnext, hstep']
      · intro i h
        match i with
        | 0 =>
          refine ⟨_, _, rfl, rfl, ?_, hid, ?_, ?_, ?_⟩
          · simp
          · rw [hslicelen]
          · rw [hslicelen]
            omega
          · simp
        | j + 1 =>
          obtain ⟨ph, slice, hget, hft, hfid, hlt, hsz, hln, haddr⟩ :=
            hitems' j (by simpa using h)
          have haddr' : ph.addr = Address.none := by
            rw [haddr]
            split <;> rfl
          refine ⟨ph, slice, ?_, ?_, ?_, ?_, hsz, hln, ?_⟩
          · simpa using hget
          · exact hft
          · rw [hfid]
            simp only
            omega
          · exact hlt
          · rw [haddr']
            simp
    · refine ⟨[], s, ?_, by intro i h; simp at h⟩
      unfold stepN
      rw [Fragment.next_exhausted s hid]

/-- Running the iterator for exactly the `frag_total - next_frag_id` remaining
steps yields exactly that many items whose payload slices concatenate to the
not-yet-consumed suffix of the payload, and leaves the iterator exhausted.
Requires the capacity invariant: the remaining payload fits into the remaining
fragments. -/
theorem stepN_complete (n : Nat) : ∀ (s : Fragment),
    9 + s.addr.len ≤ s.max_pkt_size →
    s.next_frag_start ≤ s.payload.length →
    s.next_frag_id ≤ s.frag_total →
    s.frag_total - s.next_frag_id = n →
    (s.next_frag_id < s.frag_total →
      s.payload.length ≤ s.next_frag_start + (s.max_pkt_size - 8 - s.addr.len)
        + (s.frag_total - s.next_frag_id - 1) * (s.max_pkt_size - 9)) →
    (s.next_frag_id = s.frag_total → s.payload.length ≤ s.next_frag_start) →
    ∃ items s', stepN n s = some (items, s') ∧
      items.length = n ∧
      (items.map Prod.snd).flatten = s.payload.drop s.next_frag_start ∧
      s'.frag_total = s.frag_total ∧ s'.next_frag_id = s.frag_total := by
  induction n with
  | zero =>
    intro s hmax hstart hle hdiff hcap hdone
    have hideq : s.next_frag_id = s.frag_total := by omega
    refine ⟨[], s, rfl, rfl, ?_, rfl, hideq.symm ▸ rfl⟩
    rw [List.map_nil, List.flatten_nil,
      (List.drop_eq_nil_iff).mpr (hdone hideq)]
  | succ n ih =>
    intro s hmax hstart hle hdiff hcap hdone
    have hid : s.next_frag_id < s.frag_total := by omega
    have hone := s.addr.one_le_len
    have hnext := Fragment.next_eq s hmax hstart hid
    have hcap' := hcap hid
    set ps := s.max_pkt_size - 8 - s.addr.len with hps
    set endv := min (s.next_frag_start + ps) s.payload.length with hend
    have hendle : endv ≤ s.payload.length := min_le_right _ _
    have hendub : endv ≤ s.next_frag_start + ps := min_le_left _ _
    have hstartend : s.next_frag_start ≤ endv :=
      le_min (Nat.le_add_right _ _) hstart
    -- capacity invariant for the successor state
    have key1 : s.next_frag_id + 1 < s.frag_total →
        s.payload.length ≤ endv + (s.max_pkt_size - 8 - Address.none.len)
          + (s.frag_total - (s.next_frag_id + 1) - 1) * (s.max_pkt_size - 9) := by
      intro h2
      have hnl : Address.none.len = 1 := rfl
      have hmul : (s.frag_total - s.next_frag_id - 1) * (s.max_pkt_size - 9)
          = (s.frag_total - (s.next_frag_id + 1) - 1) * (s.max_pkt_size - 9)
            + (s.max_pkt_size - 9) := by
        have hk : s.frag_total - s.next_frag_id - 1
            = (s.frag_total - (s.next_frag_id + 1) - 1) + 1 := by omega
        rw [hk, Nat.succ_mul]
      rw [hnl]
      generalize hA : (s.frag_total - s.next_frag_id - 1) * (s.max_pkt_size - 9) = A
        at hmul hcap'
      generalize hB : (s.frag_total - (s.next_frag_id + 1) - 1) * (s.max_pkt_size - 9) = B
        at hmul ⊢
      rcases le_or_lt (s.next_frag_start + ps) s.payload.length with hc | hc
      · have he : endv = s.next_frag_start + ps := min_eq_left hc
        omega
      · have he : endv = s.payload.length := min_eq_right (le_of_lt hc)
        omega
    have key2 : s.next_frag_id + 1 = s.frag_total → s.payload.length ≤ endv := by
      intro h2
      have hz : s.frag_total - s.next_frag_id - 1 = 0 := by omega
      rw [hz, Nat.zero_mul, Nat.add_zero] at hcap'
      rcases le_or_lt (s.next_frag_start + ps) s.payload.length with hc | hc
      · have he : endv = s.next_frag_start + ps := min_eq_left hc
        omega
      · have he : endv = s.payload.length := min_eq_right (le_of_lt hc)
        omega
    obtain ⟨items', s', hstep', hlen', hjoin', hft', hid'⟩ :=
      ih { s with addr := Address.none, next_frag_id := s.next_frag_id + 1,
                  next_frag_start := endv }
        (by
          show 9 + Address.none.len ≤ s.max_pkt_size
          have hnl : Address.none.len = 1 := rfl
          omega)
        hendle
        (by show s.next_frag_id + 1 ≤ s.frag_total; omega)
        (by show s.frag_total - (s.next_frag_id + 1) = n; omega)
        (by
          intro h2
          exact key1 h2)
        (by
          intro h2
          exact key2 h2)
    refine ⟨(Header.packet
        { assoc_id := s.assoc_id, pkt_id := s.pkt_id, frag_total := s.frag_total,
          frag_id := s.next_frag_id, size := (endv - s.next_frag_start) % 65536,
          addr := s.addr },
        (s.payload.drop s.next_frag_start).take (endv - s.next_frag_start)) :: items',
      s', ?_, ?_, ?_, ?_, ?_⟩
    · unfold stepN
      simp only [hnext, hstep']
    · simp [hlen']
    · simp only [List.map_cons, List.flatten_cons]
      have hj : (items'.map Prod.snd).flatten = s.payload.drop endv := hjoin'
      rw [hj]
      have hdd : s.payload.drop endv
          = (s.payload.drop s.next_frag_start).drop (endv - s.next_frag_start) := by
        rw [List.drop_drop]
        congr 1
        omega
      rw [hdd, List.take_append_drop]
    · exact hft'
    · exact hid'

/-- Under the byte-budget precondition, the freshly constructed iterator
satisfies the capacity invariant of `stepN_complete` when the computed
fragment-count formula does not overflow the `u8` cast. -/
theorem fragTotalVal_capacity (addr : Address) (max_pkt_size payloadLen : Nat)
    (hpre : PacketHeader.len_without_addr + addr.len + 1 ≤ max_pkt_size)
    (hcount : 1 + (payloadLen - (max_pkt_size - PacketHeader.len_without_addr - addr.len))
        / (max_pkt_size - PacketHeader.len_without_addr - Address.none.len) + 1 ≤ 255) :
    1 ≤ fragTotalVal addr max_pkt_size payloadLen ∧
    payloadLen ≤ (max_pkt_size - 8 - addr.len)
      + (fragTotalVal addr max_pkt_size payloadLen - 1) * (max_pkt_size - 9) := by
  have hone := addr.one_le_len
  have hnl : Address.none.len = 1 := rfl
  simp only [PacketHeader.len_without_addr] at hpre hcount
  rw [hnl] at hcount
  unfold fragTotalVal
  simp only [PacketHeader.len_without_addr, hnl]
  by_cases hc : max_pkt_size - 8 - addr.len < payloadLen
  · rw [if_pos hc]
    set f := max_pkt_size - 8 - addr.len with hf
    have h89 : max_pkt_size - 8 - 1 = max_pkt_size - 9 := by omega
    rw [h89] at hcount ⊢
    have hfs : 0 < max_pkt_size - 9 := by omega
    set q := (payloadLen - f) / (max_pkt_size - 9) with hq
    have hraw : (1 + q + 1) % 256 = 1 + q + 1 :=
      Nat.mod_eq_of_lt (Nat.lt_of_le_of_lt hcount (by norm_num))
    rw [hraw]
    refine ⟨Nat.le_add_left 1 (1 + q), ?_⟩
    have hsub : 1 + q + 1 - 1 = q + 1 := by
      rw [Nat.add_sub_cancel, Nat.add_comm]
    rw [hsub, Nat.succ_mul]
    have hdm := Nat.div_add_mod (payloadLen - f) (max_pkt_size - 9)
    have hmod := Nat.mod_lt (payloadLen - f) hfs
    rw [← hq] at hdm
    rw [Nat.mul_comm] at hdm
    generalize hQ : q * (max_pkt_size - 9) = Q at hdm ⊢
    omega
  · rw [if_neg hc]
    exact ⟨le_refl 1, by omega⟩

/-- Claim C1 (amended): for every payload and every `max_pkt_size` large
enough that each fragment can hold at least one byte of payload, and
additionally such that the computed fragment-count formula value fits in a
`u8` (at most 255), concatenating in emission order all payload slices
yielded by the iterator returned from `Packet::into_fragments(payload)`
yields exactly the original payload. -/
theorem into_fragments_complete (t : PacketTx) (payload : List Nat)
    (hpre : PacketHeader.len_without_addr + t.addr.len + 1 ≤ t.max_pkt_size)
    (hcount : 1 + (payload.length
        - (t.max_pkt_size - PacketHeader.len_without_addr - t.addr.len))
        / (t.max_pkt_size - PacketHeader.len_without_addr - Address.none.len) + 1 ≤ 255) :
    ∃ fr items s', t.into_fragments payload = some fr ∧
      stepN fr.frag_total fr = some (items, s') ∧
      (items.map Prod.snd).flatten = payload := by
  have hone := t.addr.one_le_len
  have hnew := Fragment.new_eq t.assoc_id t.pkt_id t.addr t.max_pkt_size payload hpre
  obtain ⟨h1, hcap⟩ := fragTotalVal_capacity t.addr t.max_pkt_size payload.length hpre hcount
  simp only [PacketHeader.len_without_addr] at hpre
  obtain ⟨items, s', hstep, hlen, hjoin, hft, hid⟩ :=
    stepN_complete (fragTotalVal t.addr t.max_pkt_size payload.length)
      { assoc_id := t.assoc_id, pkt_id := t.pkt_id, addr := t.addr,
        max_pkt_size := t.max_pkt_size,
        frag_total := fragTotalVal t.addr t.max_pkt_size payload.length,
        next_frag_id := 0, next_frag_start := 0, payload := payload }
      (by simp only; omega)
      (by simp only; omega)
      (by simp only; omega)
      (by simp only; omega)
      (by intro _; simpa using hcap)
      (by
        intro h0
        simp only at h0
        exact absurd h0 (by omega))
  refine ⟨Fragment.mk t.assoc_id t.pkt_id t.addr t.max_pkt_size
      (fragTotalVal t.addr t.max_pkt_size payload.length) 0 0 payload,
    items, s', ?_, ?_, ?_⟩
  · unfold PacketTx.into_fragments
    exact hnew
  · exact hstep
  · rw [hjoin]
    exact List.drop_zero _

set_option maxRecDepth 4000 in
/-- Claim C1, counterexample to the original statement: `max_pkt_size = 10`
and `addr = Address::None` give room for exactly one payload byte per
fragment (the claim's own precondition holds), yet a 255-byte payload — which
needs 256 fragments — makes the `as u8` cast wrap `frag_total` to 0, so the
iterator emits nothing and the concatenation is empty, not the payload. -/
theorem into_fragments_incomplete_overflow :
    PacketHeader.len_without_addr + Address.none.len + 1 ≤ 10 ∧
    ((PacketTx.into_fragments
        { assoc_id := 0, pkt_id := 0, addr := Address.none, max_pkt_size := 10 }
        (List.replicate 255 0)).bind (stepN 256)).map
      (fun pr => (pr.1.map Prod.snd).flatten) = some [] ∧
    List.replicate 255 0 ≠ ([] : List Nat) := by
  refine ⟨by decide, by decide, by decide⟩

/-- Claim C1 witness: a concrete run of the amended completeness theorem. -/
theorem into_fragments_complete_inst :
    ∃ fr items s', PacketTx.into_fragments
        { assoc_id := 1, pkt_id := 2, addr := Address.none, max_pkt_size := 10 }
        [5, 6] = some fr ∧
      stepN fr.frag_total fr = some (items, s') ∧
      (items.map Prod.snd).flatten = [5, 6] :=
  into_fragments_complete
    { assoc_id := 1, pkt_id := 2, addr := Address.none, max_pkt_size := 10 }
    [5, 6] (by decide) (by decide)

set_option maxRecDepth 4000 in
/-- Claim C2: at `max_pkt_size = 10` with `addr = Address::None`, a 255-byte
payload needs 256 one-byte fragments, beyond the `u8` ceiling.  The claim
(and the spec) say construction reports a hard `PacketTooLarge` error before
any fragment is emitted; the code has no error path at all: `Fragment::new`
succeeds, the `as u8` cast wraps the count to 0, and the iterator emits
nothing — a malformed emission instead of an error. -/
theorem frag_total_truncates_no_error :
    (Fragment.new 0 0 Address.none 10 (List.replicate 255 0)).map Fragment.frag_total
      = some 0 ∧
    ((Fragment.new 0 0 Address.none 10 (List.replicate 255 0)).bind (stepN 256)).map
      (fun pr => pr.1.length) = some 0 := by
  exact ⟨by decide, by decide⟩

/-- The integer formula `1 + r / fs + 1` equals the exact ceiling count
`1 + ceil(r / fs)` plus one exactly when `fs` divides the positive
remainder `r`. -/
theorem formula_eq_ceil_succ_iff (r fs : Nat) (hr : 0 < r) (hfs : 0 < fs) :
    (1 + r / fs + 1 = (1 + (r + fs - 1) / fs) + 1 ↔ fs ∣ r) := by
  have hr1 : r - 1 + 1 = r := by omega
  have h1 : (r + fs - 1) / fs = (r - 1) / fs + 1 := by
    have : r + fs - 1 = (r - 1) + fs := by omega
    rw [this, Nat.add_div_right _ hfs]
  have h2 := Nat.succ_div (r - 1) fs
  rw [hr1] at h2
  constructor
  · intro heq
    by_contra hnd
    rw [if_neg hnd, Nat.add_zero] at h2
    rw [h2, h1] at heq
    omega
  · intro hd
    rw [if_pos hd] at h2
    rw [h2, h1]

/-- Claim C3: with `first_frag_size = max_pkt_size - len_without_addr() -
len(addr)` and `frag_size_addr_none = max_pkt_size - len_without_addr() -
len(Address::None)`: if the payload fits in the first fragment then
`frag_total = 1`; otherwise `frag_total` is the value of the integer formula
`1 + (payload_len - first_frag_size) / frag_size_addr_none + 1` (reduced by
the `u8` cast, the identity whenever the formula is at most 255), and that
formula exceeds the exact ceiling count by one exactly when
`payload_len - first_frag_size` is a (positive) multiple of
`frag_size_addr_none`. -/
theorem frag_total_formula_spec (assoc_id pkt_id : Nat) (addr : Address)
    (max_pkt_size : Nat) (payload : List Nat)
    (hpre : PacketHeader.len_without_addr + addr.len + 1 ≤ max_pkt_size) :
    ∃ fr, Fragment.new assoc_id pkt_id addr max_pkt_size payload = some fr ∧
      (payload.length ≤ max_pkt_size - PacketHeader.len_without_addr - addr.len →
        fr.frag_total = 1) ∧
      (max_pkt_size - PacketHeader.len_without_addr - addr.len < payload.length →
        fr.frag_total =
          (1 + (payload.length
              - (max_pkt_size - PacketHeader.len_without_addr - addr.len))
            / (max_pkt_size - PacketHeader.len_without_addr - Address.none.len) + 1) % 256 ∧
        (1 + (payload.length
              - (max_pkt_size - PacketHeader.len_without_addr - addr.len))
            / (max_pkt_size - PacketHeader.len_without_addr - Address.none.len) + 1 ≤ 255 →
          fr.frag_total =
            1 + (payload.length
                - (max_pkt_size - PacketHeader.len_without_addr - addr.len))
              / (max_pkt_size - PacketHeader.len_without_addr - Address.none.len) + 1) ∧
        (1 + (payload.length
              - (max_pkt_size - PacketHeader.len_without_addr - addr.len))
            / (max_pkt_size - PacketHeader.len_without_addr - Address.none.len) + 1
          = (1 + ((payload.length
                - (max_pkt_size - PacketHeader.len_without_addr - addr.len))
              + (max_pkt_size - PacketHeader.len_without_addr - Address.none.len) - 1)
            / (max_pkt_size - PacketHeader.len_without_addr - Address.none.len)) + 1
          ↔ (max_pkt_size - PacketHeader.len_without_addr - Address.none.len)
              ∣ (payload.length
                - (max_pkt_size - PacketHeader.len_without_addr - addr.len)))) := by
  have hone := addr.one_le_len
  have hnew := Fragment.new_eq assoc_id pkt_id addr max_pkt_size payload hpre
  have hnl : Address.none.len = 1 := rfl
  simp only [PacketHeader.len_without_addr] at hpre ⊢
  rw [hnl]
  refine ⟨_, hnew, ?_, ?_⟩
  · intro hle
    simp only [fragTotalVal, PacketHeader.len_without_addr]
    rw [if_neg (by omega)]
  · intro hc
    have hfs : 0 < max_pkt_size - 8 - 1 := by omega
    have hr : 0 < payload.length - (max_pkt_size - 8 - addr.len) := by omega
    refine ⟨?_, ?_, ?_⟩
    · simp only [fragTotalVal, PacketHeader.len_without_addr, hnl]
      rw [if_pos hc]
    · intro hb
      simp only [fragTotalVal, PacketHeader.len_without_addr, hnl]
      rw [if_pos hc]
      exact Nat.mod_eq_of_lt (by omega)
    · exact formula_eq_ceil_succ_iff _ _ hr hfs

/-- Claim C3 witness: `addr = None`, `max_pkt_size = 10`, 3-byte payload:
`first_frag_size = 1`, `frag_size_addr_none = 1`, remainder `2` divides
evenly, the formula gives `4` while the exact ceiling count is `3`. -/
theorem frag_total_formula_inst :
    ∃ fr, Fragment.new 7 8 Address.none 10 [1, 2, 3] = some fr ∧
      ([1, 2, 3].length ≤ 10 - PacketHeader.len_without_addr - Address.none.len →
        fr.frag_total = 1) ∧
      (10 - PacketHeader.len_without_addr - Address.none.len < [1, 2, 3].length →
        fr.frag_total =
          (1 + ([1, 2, 3].length
              - (10 - PacketHeader.len_without_addr - Address.none.len))
            / (10 - PacketHeader.len_without_addr - Address.none.len) + 1) % 256 ∧
        (1 + ([1, 2, 3].length
              - (10 - PacketHeader.len_without_addr - Address.none.len))
            / (10 - PacketHeader.len_without_addr - Address.none.len) + 1 ≤ 255 →
          fr.frag_total =
            1 + ([1, 2, 3].length
                - (10 - PacketHeader.len_without_addr - Address.none.len))
              / (10 - PacketHeader.len_without_addr - Address.none.len) + 1) ∧
        (1 + ([1, 2, 3].length
              - (10 - PacketHeader.len_without_addr - Address.none.len))
            / (10 - PacketHeader.len_without_addr - Address.none.len) + 1
          = (1 + (([1, 2, 3].length
                - (10 - PacketHeader.len_without_addr - Address.none.len))
              + (10 - PacketHeader.len_without_addr - Address.none.len) - 1)
            / (10 - PacketHeader.len_without_addr - Address.none.len)) + 1
          ↔ (10 - PacketHeader.len_without_addr - Address.none.len)
              ∣ ([1, 2, 3].length
                - (10 - PacketHeader.len_without_addr - Address.none.len)))) :=
  frag_total_formula_spec 7 8 Address.none 10 [1, 2, 3] (by decide)

/-- Claim C4 (amended): with `max_pkt_size = 32`, an IPv4 socket address
(encoded length 7 = 1 tag byte + 4 IP bytes + 2 port bytes),
`len_without_addr() = 8` and a 50-byte payload, the fragment iterator yields
exactly 3 fragments whose payload slices have lengths 17, 23 and 10 in that
order (first fragment budget `32 - 8 - 7 = 17`), totaling 50 bytes. -/
theorem concrete_scenario_fragments :
    (Address.socket4 127 0 0 1 443).len = 7 ∧
    ((PacketTx.into_fragments
        { assoc_id := 0, pkt_id := 0, addr := Address.socket4 127 0 0 1 443,
          max_pkt_size := 32 } (List.replicate 50 1)).bind
      (fun fr => stepN fr.frag_total fr)).map
        (fun pr => pr.1.map (fun it => it.2.length)) = some [17, 23, 10] ∧
    17 + 23 + 10 = 50 := by
  exact ⟨by decide, by decide, by decide⟩

/-- Claim C4, counterexample to the original statement: an IPv4 socket
address (1 tag byte + 4-byte IPv4 + 2-byte port) has encoded length 7, not 8,
so at the claimed scenario the emitted payload slices have lengths
`[17, 23, 10]`, not `[16, 23, 11]`. -/
theorem concrete_scenario_cex :
    (Address.socket4 127 0 0 1 443).len ≠ 8 ∧
    ((PacketTx.into_fragments
        { assoc_id := 0, pkt_id := 0, addr := Address.socket4 127 0 0 1 443,
          max_pkt_size := 32 } (List.replicate 50 1)).bind
      (fun fr => stepN fr.frag_total fr)).map
        (fun pr => pr.1.map (fun it => it.2.length)) ≠ some [16, 23, 11] := by
  exact ⟨by decide, by decide⟩

/-- Claim C5: the code's `ExactSizeIterator::len` returns the stored
`frag_total` unconditionally.  On this concrete iterator with 3 fragments,
after consuming one item `len()` still returns 3 although only 2 items
remain, violating the remaining-length contract stated by the claim. -/
theorem exact_size_len_constant :
    ((PacketTx.into_fragments
        { assoc_id := 0, pkt_id := 0, addr := Address.none, max_pkt_size := 10 }
        [1, 2]).bind (stepN 1)).map
      (fun pr => (Fragment.len pr.2, (stepN 3 pr.2).map (fun q => q.1.length)))
      = some (3, some 2) ∧ (3 : Nat) ≠ 2 := by
  exact ⟨by decide, by decide⟩

/-- Claim C6: in the sequence of packet headers emitted by one `Fragment`
iterator, only the header with `frag_id == 0` carries the original address;
every header with `frag_id > 0` carries `Address::None` (the code reads the
address with the destructive `Address::take`, which leaves `None` behind). -/
theorem address_once (t : PacketTx) (payload : List Nat)
    (hpre : PacketHeader.len_without_addr + t.addr.len + 1 ≤ t.max_pkt_size) :
    ∃ fr, t.into_fragments payload = some fr ∧
      ∀ n, ∃ items s', stepN n fr = some (items, s') ∧
        ∀ i, (h : i < items.length) → ∃ ph slice,
          items.get ⟨i, h⟩ = (Header.packet ph, slice) ∧
          (ph.frag_id = 0 → ph.addr = t.addr) ∧
          (0 < ph.frag_id → ph.addr = Address.none) := by
  have hone := t.addr.one_le_len
  have hnew := Fragment.new_eq t.assoc_id t.pkt_id t.addr t.max_pkt_size payload hpre
  simp only [PacketHeader.len_without_addr] at hpre
  refine ⟨Fragment.mk t.assoc_id t.pkt_id t.addr t.max_pkt_size
      (fragTotalVal t.addr t.max_pkt_size payload.length) 0 0 payload, hnew, ?_⟩
  intro n
  obtain ⟨items, s', hstep, hitems⟩ :=
    stepN_items n
      (Fragment.mk t.assoc_id t.pkt_id t.addr t.max_pkt_size
        (fragTotalVal t.addr t.max_pkt_size payload.length) 0 0 payload)
      (by simp only; omega)
      (by simp only; omega)
  refine ⟨items, s', hstep, ?_⟩
  intro i h
  obtain ⟨ph, slice, hget, _, hfid, _, _, _, haddr⟩ := hitems i h
  simp only at hfid haddr
  refine ⟨ph, slice, hget, ?_, ?_⟩
  · intro h0
    have hi : i = 0 := by omega
    rw [haddr, if_pos hi]
  · intro h0
    have hi : ¬ i = 0 := by omega
    rw [haddr, if_neg hi]

/-- Claim C6 witness: a concrete run with an IPv4 socket address. -/
theorem address_once_inst :
    ∃ fr, PacketTx.into_fragments
        { assoc_id := 3, pkt_id := 4, addr := Address.socket4 10 0 0 1 80,
          max_pkt_size := 16 } [9, 9, 9] = some fr ∧
      ∀ n, ∃ items s', stepN n fr = some (items, s') ∧
        ∀ i, (h : i < items.length) → ∃ ph slice,
          items.get ⟨i, h⟩ = (Header.packet ph, slice) ∧
          (ph.frag_id = 0 → ph.addr = Address.socket4 10 0 0 1 80) ∧
          (0 < ph.frag_id → ph.addr = Address.none) :=
  address_once
    { assoc_id := 3, pkt_id := 4, addr := Address.socket4 10 0 0 1 80,
      max_pkt_size := 16 } [9, 9, 9] (by decide)

/-- Claim C7 (amended): every packet header emitted by the iterator satisfies
`frag_id < frag_total`, the `frag_total` field is the one fixed stored value
across all emitted headers, and — provided `max_pkt_size ≤ 65544`, so that
every slice is shorter than 65536 bytes — the `size` field (a `u16`, written
via an `as u16` cast) equals the length of the payload slice emitted
alongside it. -/
theorem emitted_header_invariants (t : PacketTx) (payload : List Nat)
    (hpre : PacketHeader.len_without_addr + t.addr.len + 1 ≤ t.max_pkt_size)
    (hsize : t.max_pkt_size ≤ 65544) :
    ∃ fr, t.into_fragments payload = some fr ∧
      ∀ n, ∃ items s', stepN n fr = some (items, s') ∧
        ∀ i, (h : i < items.length) → ∃ ph slice,
          items.get ⟨i, h⟩ = (Header.packet ph, slice) ∧
          ph.frag_id < ph.frag_total ∧
          ph.frag_total = fr.frag_total ∧
          ph.size = slice.length := by
  have hone := t.addr.one_le_len
  have hnew := Fragment.new_eq t.assoc_id t.pkt_id t.addr t.max_pkt_size payload hpre
  simp only [PacketHeader.len_without_addr] at hpre
  refine ⟨Fragment.mk t.assoc_id t.pkt_id t.addr t.max_pkt_size
      (fragTotalVal t.addr t.max_pkt_size payload.length) 0 0 payload, hnew, ?_⟩
  intro n
  obtain ⟨items, s', hstep, hitems⟩ :=
    stepN_items n
      (Fragment.mk t.assoc_id t.pkt_id t.addr t.max_pkt_size
        (fragTotalVal t.addr t.max_pkt_size payload.length) 0 0 payload)
      (by simp only; omega)
      (by simp only; omega)
  refine ⟨items, s', hstep, ?_⟩
  intro i h
  obtain ⟨ph, slice, hget, hft, _, hlt, hsz, hln, _⟩ := hitems i h
  simp only at hft hlt hsz hln
  refine ⟨ph, slice, hget, ?_, ?_, ?_⟩
  · rw [hft]
    exact hlt
  · exact hft
  · rw [hsz]
    exact Nat.mod_eq_of_lt (by omega)

/-- Claim C7 witness: a concrete run. -/
theorem emitted_header_invariants_inst :
    ∃ fr, PacketTx.into_fragments
        { assoc_id := 5, pkt_id := 6, addr := Address.none, max_pkt_size := 11 }
        [4, 4, 4, 4, 4] = some fr ∧
      ∀ n, ∃ items s', stepN n fr = some (items, s') ∧
        ∀ i, (h : i < items.length) → ∃ ph slice,
          items.get ⟨i, h⟩ = (Header.packet ph, slice) ∧
          ph.frag_id < ph.frag_total ∧
          ph.frag_total = fr.frag_total ∧
          ph.size = slice.length :=
  emitted_header_invariants
    { assoc_id := 5, pkt_id := 6, addr := Address.none, max_pkt_size := 11 }
    [4, 4, 4, 4, 4] (by decide) (by decide)

/-- The `size` field of an emitted header (0 for a connect header, which the
fragmentation path never emits). -/
def Header.packetSize : Header → Nat
  | Header.packet ph => ph.size
  | Header.connect _ => 0

/-- For any 65536-byte payload, `max_pkt_size = 65545` and `addr = None`
give a single fragment whose slice has length 65536 while the `as u16` cast
stores 0 in the `size` field. -/
theorem size_field_truncation_of_length (P : List Nat) (hP : P.length = 65536) :
    ((PacketTx.into_fragments
        { assoc_id := 0, pkt_id := 0, addr := Address.none, max_pkt_size := 65545 }
        P).bind (stepN 1)).map
      (fun pr => pr.1.map (fun it => (Header.packetSize it.1, it.2.length)))
      = some [(0, 65536)] := by
  have hnew := Fragment.new_eq 0 0 Address.none 65545 P (by decide)
  have hft : fragTotalVal Address.none 65545 P.length = 1 := by
    rw [hP]
    norm_num [fragTotalVal, PacketHeader.len_without_addr, Address.len]
  rw [hft] at hnew
  have hnew2 : PacketTx.into_fragments
      { assoc_id := 0, pkt_id := 0, addr := Address.none, max_pkt_size := 65545 } P
      = some (Fragment.mk 0 0 Address.none 65545 1 0 0 P) :=
    hnew
  have hnext := Fragment.next_eq (Fragment.mk 0 0 Address.none 65545 1 0 0 P)
    (by norm_num [Address.len]) (Nat.zero_le _) (by norm_num)
  simp only [Address.len, hP, Nat.zero_add, Nat.min_self, Nat.sub_zero,
    List.drop_zero] at hnext
  have hstep : stepN 1 (Fragment.mk 0 0 Address.none 65545 1 0 0 P)
      = some ([(Header.packet (PacketHeader.mk 0 0 1 0 0 Address.none),
          P.take 65536)],
        Fragment.mk 0 0 Address.none 65545 1 1 65536 P) := by
    unfold stepN
    simp only [hnext, stepN]
  have hbind : ((PacketTx.into_fragments
      { assoc_id := 0, pkt_id := 0, addr := Address.none, max_pkt_size := 65545 }
      P).bind (stepN 1))
      = stepN 1 (Fragment.mk 0 0 Address.none 65545 1 0 0 P) := by
    rw [hnew2, Option.some_bind]
  rw [hbind, hstep]
  simp only [Option.map_some', List.map_cons, List.map_nil, Header.packetSize,
    List.length_take, hP, Nat.min_self]

/-- Claim C7, counterexample to the original statement: with
`max_pkt_size = 65545` and `addr = None` a 65536-byte payload fits in one
fragment, whose slice has length 65536; the `as u16` cast stores
`65536 % 65536 = 0` in the `size` field, which does not equal the slice
length. -/
theorem size_field_truncation_cex :
    ((PacketTx.into_fragments
        { assoc_id := 0, pkt_id := 0, addr := Address.none, max_pkt_size := 65545 }
        (List.replicate 65536 0)).bind (stepN 1)).map
      (fun pr => pr.1.map (fun it => (Header.packetSize it.1, it.2.length)))
      = some [(0, 65536)] ∧ (0 : Nat) ≠ 65536 :=
  ⟨size_field_truncation_of_length (List.replicate 65536 0)
    (List.length_replicate _ _), by norm_num⟩

/-- Claim C8: under the precondition that the budget leaves room for at least
one payload byte per fragment, `Fragment::new` succeeds and driving the
iterator never hits a panicking `usize` subtraction; and without that
precondition the subtraction `max_pkt_size - len_without_addr() - addr.len()`
can underflow (witnessed by `max_pkt_size = 0`). -/
theorem fragment_arith_safe (t : PacketTx) (payload : List Nat)
    (hpre : PacketHeader.len_without_addr + t.addr.len + 1 ≤ t.max_pkt_size) :
    (∃ fr, t.into_fragments payload = some fr ∧
      ∀ n, stepN n fr ≠ Option.none) ∧
    Fragment.new 0 0 Address.none 0 [] = Option.none := by
  have hone := t.addr.one_le_len
  have hnew := Fragment.new_eq t.assoc_id t.pkt_id t.addr t.max_pkt_size payload hpre
  simp only [PacketHeader.len_without_addr] at hpre
  refine ⟨⟨Fragment.mk t.assoc_id t.pkt_id t.addr t.max_pkt_size
      (fragTotalVal t.addr t.max_pkt_size payload.length) 0 0 payload, hnew, ?_⟩,
    by decide⟩
  intro n
  obtain ⟨items, s', hstep, _⟩ :=
    stepN_items n
      (Fragment.mk t.assoc_id t.pkt_id t.addr t.max_pkt_size
        (fragTotalVal t.addr t.max_pkt_size payload.length) 0 0 payload)
      (by simp only; omega)
      (by simp only; omega)
  rw [hstep]
  exact Option.some_ne_none _

/-- Claim C8 witness: a concrete safe construction and run. -/
theorem fragment_arith_safe_inst :
    (∃ fr, PacketTx.into_fragments
        { assoc_id := 0, pkt_id := 1, addr := Address.domain [97, 98] 53,
          max_pkt_size := 20 } [1, 2, 3, 4] = some fr ∧
      ∀ n, stepN n fr ≠ Option.none) ∧
    Fragment.new 0 0 Address.none 0 [] = Option.none :=
  fragment_arith_safe
    { assoc_id := 0, pkt_id := 1, addr := Address.domain [97, 98] 53,
      max_pkt_size := 20 } [1, 2, 3, 4] (by decide)

/-! The stream wrapper of `src/src/client/stream.rs`.  The underlying quinn
send/receive stream halves are external; their states are abstracted as type
parameters and the effect of `quinn::SendStream::finish` as a supplied
state-transforming function returning a result. -/

/-- `StreamReg = Arc<()>`: a payload-free task-registration token. -/
def StreamReg : Type := Unit

/-- Modelled from the spec: the underlying transport send half is external;
`σ` abstracts its state. -/
structure QuinnSendStream (σ : Type) where
  state : σ

/-- Modelled from the spec: the underlying transport receive half is
external; `ρ` abstracts its state. -/
structure QuinnRecvStream (ρ : Type) where
  state : ρ

/-- `client::stream::SendStream`: a quinn send half plus its registration. -/
structure SendStream (σ : Type) where
  inner : QuinnSendStream σ
  reg : StreamReg

/-- `client::stream::RecvStream`: a quinn receive half plus its
registration. -/
structure RecvStream (ρ : Type) where
  inner : QuinnRecvStream ρ
  reg : StreamReg

/-- `SendStream::finish`: awaits `self.0.finish()` (the external effect
`impl`), propagates its error with `?`, and returns `Ok(())`. -/
def SendStream.finish {σ ε : Type} (impl : σ → Except ε Unit × σ)
    (s : SendStream σ) : Except ε Unit × SendStream σ :=
  match impl s.inner.state with
  | (Except.ok _, st) => (Except.ok (), { s with inner := ⟨st⟩ })
  | (Except.error e, st) => (Except.error e, { s with inner := ⟨st⟩ })

/-- `client::stream::Stream`: one send half and one receive half. -/
structure Stream (σ ρ : Type) where
  send : SendStream σ
  recv : RecvStream ρ

/-- `Stream::finish`: `self.0.finish().await` — delegates to the send half
(field 0). -/
def Stream.finish {σ ρ ε : Type} (impl : σ → Except ε Unit × σ)
    (st : Stream σ ρ) : Except ε Unit × Stream σ ρ :=
  let r := SendStream.finish impl st.send
  (r.1, { send := r.2, recv := st.recv })

/-- Claim C9: `Stream::finish` on the combined stream invokes `finish` only
on its send half (field 0) and returns that result; the receive half is left
untouched (no operation is performed on it: its state — including its
registration — is unchanged, whatever the external finish effect does). -/
theorem stream_finish_delegates (σ ρ ε : Type) (impl : σ → Except ε Unit × σ)
    (st : Stream σ ρ) :
    (Stream.finish impl st).1 = (SendStream.finish impl st.send).1 ∧
    (Stream.finish impl st).2.send = (SendStream.finish impl st.send).2 ∧
    (Stream.finish impl st).2.recv = st.recv :=
  ⟨rfl, rfl, rfl⟩

/-! The command-line configuration of `src/client/src/config.rs`.  The
getopts matching itself and the std string parsers (`str::parse` for ports
and retry counts, IP address parsing, seahash) are external; the model starts
from the option values getopts produced and abstracts the parsers as supplied
functions.  Strings are byte lists (`String::into_bytes` is then the
identity). -/

/-- The getopts match result consumed by `ConfigBuilder::parse`.  The four
`reqopt` options (`-s`, `-p`, `-t`, `-l`) are present whenever getopts
succeeded, so they are plain fields; `optopt` options are `Option`s and
`optflag`s are `Bool`s. -/
structure Matches where
  free : List (List Nat)
  v : Bool
  h : Bool
  s : List Nat
  p : List Nat
  t : List Nat
  l : List Nat
  server_ip : Option (List Nat)
  number_of_retries : Option (List Nat)
  socks5_username : Option (List Nat)
  socks5_password : Option (List Nat)
  cert : Option (List Nat)
  allow_external_connection : Bool
deriving DecidableEq

/-- `std::net::SocketAddr`, as an IP byte tuple plus port. -/
structure SocketAddr where
  ip : List Nat
  port : Nat
deriving DecidableEq

/-- `config::ServerAddr`. -/
inductive ServerAddr where
  | socketAddr (server_addr : SocketAddr) (server_name : List Nat)
  | hostnameAddr (hostname : List Nat) (server_port : Nat)
deriving DecidableEq

/-- `config::Socks5AuthenticationConfig`. -/
inductive Socks5AuthenticationConfig where
  | none
  | password (username : List Nat) (pw : List Nat)
deriving DecidableEq

/-- `config::Config`. -/
structure Config where
  server_addr : ServerAddr
  token : Nat
  number_of_retries : Nat
  local_addr : SocketAddr
  socks5_authentication : Socks5AuthenticationConfig
  certificate_path : Option (List Nat)
deriving DecidableEq

/-- `config::ConfigError`.  The usage strings and wrapped std error values
the Rust variants carry are presentation-only and are elided; the `Parse`
variant is produced by the external getopts stage, before the part modelled
here. -/
inductive ConfigError where
  | parseFail
  | unexpectedArgument
  | parsePort
  | parseServerIp
  | parseNumberOfRetries
  | socks5UsernameAndPassword
  | version
  | help
deriving DecidableEq

/-- `ConfigBuilder::parse`, from the point where getopts matching succeeded:
the sequence of early returns (`free` arguments, `-v`, `-h`), the server
address (server port parsed first, then the optional `--server-ip`), the
token hash, the retry count (default 3), the local port and `local_addr`
(0.0.0.0 with `--allow-external-connection`, 127.0.0.1 otherwise), the
certificate path, and finally the SOCKS5 authentication pairing. -/
def ConfigBuilder.parse (parsePort parseRetries : List Nat → Option Nat)
    (parseIp : List Nat → Option (List Nat)) (hashToken : List Nat → Nat)
    (m : Matches) : Except ConfigError Config :=
  if m.free.isEmpty = false then Except.error ConfigError.unexpectedArgument
  else if m.v then Except.error ConfigError.version
  else if m.h then Except.error ConfigError.help
  else
    match parsePort m.p with
    | Option.none => Except.error ConfigError.parsePort
    | Option.some server_port =>
      match (match m.server_ip with
             | Option.some ipStr =>
               match parseIp ipStr with
               | Option.some ip =>
                 Except.ok (ServerAddr.socketAddr { ip := ip, port := server_port } m.s)
               | Option.none => Except.error ConfigError.parseServerIp
             | Option.none =>
               Except.ok (ServerAddr.hostnameAddr m.s server_port) :
             Except ConfigError ServerAddr) with
      | Except.error e => Except.error e
      | Except.ok server_addr =>
        let token := hashToken m.t
        match (match m.number_of_retries with
               | Option.some r =>
                 match parseRetries r with
                 | Option.some n => Except.ok n
                 | Option.none => Except.error ConfigError.parseNumberOfRetries
               | Option.none => Except.ok 3 : Except ConfigError Nat) with
        | Except.error e => Except.error e
        | Except.ok number_of_retries =>
          match parsePort m.l with
          | Option.none => Except.error ConfigError.parsePort
          | Option.some local_port =>
            let local_addr := if m.allow_external_connection then
                SocketAddr.mk [0, 0, 0, 0] local_port
              else SocketAddr.mk [127, 0, 0, 1] local_port
            let certificate_path := m.cert
            match m.socks5_username, m.socks5_password with
            | Option.none, Option.none =>
              Except.ok { server_addr := server_addr, token := token,
                          number_of_retries := number_of_retries,
                          local_addr := local_addr,
                          socks5_authentication := Socks5AuthenticationConfig.none,
                          certificate_path := certificate_path }
            | Option.some u, Option.some pw =>
              Except.ok { server_addr := server_addr, token := token,
                          number_of_retries := number_of_retries,
                          local_addr := local_addr,
                          socks5_authentication :=
                            Socks5AuthenticationConfig.password u pw,
                          certificate_path := certificate_path }
            | _, _ => Except.error ConfigError.socks5UsernameAndPassword

/-- Claim C10 (amended): provided parsing reaches the SOCKS5 check — no free
arguments, no `-v`/`-h`, and the server port, optional server IP, optional
retry count and local port all parse — `ConfigBuilder::parse` returns the
`Socks5UsernameAndPassword` error iff exactly one of `--socks5-username` and
`--socks5-password` is supplied; with neither the authentication is `None`,
with both it is `Password` with the given byte strings; and the resulting
`local_addr` uses IP 0.0.0.0 when `--allow-external-connection` is present
and 127.0.0.1 otherwise, always with the parsed local port. -/
theorem parse_socks5_and_local_addr
    (parsePort parseRetries : List Nat → Option Nat)
    (parseIp : List Nat → Option (List Nat)) (hashToken : List Nat → Nat)
    (m : Matches) (sp lp : Nat)
    (hfree : m.free = []) (hv : m.v = false) (hh : m.h = false)
    (hp : parsePort m.p = Option.some sp)
    (hip : m.server_ip = Option.none ∨
      ∃ istr ip, m.server_ip = Option.some istr ∧ parseIp istr = Option.some ip)
    (hr : m.number_of_retries = Option.none ∨
      ∃ rstr k, m.number_of_retries = Option.some rstr ∧
        parseRetries rstr = Option.some k)
    (hl : parsePort m.l = Option.some lp) :
    ((ConfigBuilder.parse parsePort parseRetries parseIp hashToken m
        = Except.error ConfigError.socks5UsernameAndPassword)
      ↔ m.socks5_username.isSome ≠ m.socks5_password.isSome) ∧
    (m.socks5_username = Option.none → m.socks5_password = Option.none →
      ∃ cfg, ConfigBuilder.parse parsePort parseRetries parseIp hashToken m
          = Except.ok cfg ∧
        cfg.socks5_authentication = Socks5AuthenticationConfig.none ∧
        cfg.local_addr = (if m.allow_external_connection
          then SocketAddr.mk [0, 0, 0, 0] lp else SocketAddr.mk [127, 0, 0, 1] lp)) ∧
    (∀ u pw, m.socks5_username = Option.some u →
      m.socks5_password = Option.some pw →
      ∃ cfg, ConfigBuilder.parse parsePort parseRetries parseIp hashToken m
          = Except.ok cfg ∧
        cfg.socks5_authentication = Socks5AuthenticationConfig.password u pw ∧
        cfg.local_addr = (if m.allow_external_connection
          then SocketAddr.mk [0, 0, 0, 0] lp else SocketAddr.mk [127, 0, 0, 1] lp)) := by
  obtain ⟨sa, hsa⟩ : ∃ sa, (match m.server_ip with
      | Option.some ipStr =>
        match parseIp ipStr with
        | Option.some ip =>
          Except.ok (ServerAddr.socketAddr { ip := ip, port := sp } m.s)
        | Option.none => Except.error ConfigError.parseServerIp
      | Option.none => Except.ok (ServerAddr.hostnameAddr m.s sp) :
      Except ConfigError ServerAddr) = Except.ok sa := by
    rcases hip with hip0 | ⟨istr, ip, hip1, hip2⟩
    · simp only [hip0]
      exact ⟨_, rfl⟩
    · simp only [hip1, hip2]
      exact ⟨_, rfl⟩
  obtain ⟨nr, hnr⟩ : ∃ nr, (match m.number_of_retries with
      | Option.some r =>
        match parseRetries r with
        | Option.some n => Except.ok n
        | Option.none => Except.error ConfigError.parseNumberOfRetries
      | Option.none => Except.ok 3 : Except ConfigError Nat) = Except.ok nr := by
    rcases hr with hr0 | ⟨rstr, k, hr1, hr2⟩
    · simp only [hr0]
      exact ⟨_, rfl⟩
    · simp only [hr1, hr2]
      exact ⟨_, rfl⟩
  rcases hu : m.socks5_username with _ | u <;>
    rcases hw : m.socks5_password with _ | pw <;>
      simp only [ConfigBuilder.parse, hfree, hv, hh, hp, hl, hsa, hnr, hu, hw,
        List.isEmpty_nil, Option.isSome_none, Option.isSome_some, ne_eq]
  · refine ⟨by simp, fun _ _ => ⟨_, rfl, rfl, rfl⟩, ?_⟩
    intro u pw h1 h2
    simp at h1
  · refine ⟨by simp, ?_, ?_⟩
    · intro h1 h2
      simp at h2
    · intro u pw h1 h2
      simp at h1
  · refine ⟨by simp, ?_, ?_⟩
    · intro h1 h2
      simp at h1
    · intro u pw h1 h2
      simp at h2
  · refine ⟨by simp, ?_, ?_⟩
    · intro h1 h2
      simp at h1
    · intro u' pw' h1 h2
      obtain rfl : u = u' := by simpa using h1
      obtain rfl : pw = pw' := by simpa using h2
      exact ⟨_, rfl, rfl, rfl⟩

/-- Claim C10, counterexample to the original statement: with `-v` also
present and exactly one of the SOCKS5 options supplied, `parse` returns the
`Version` early error, not `Socks5UsernameAndPassword` — so "returns the
error if and only if exactly one is supplied" fails as an unconditional
two-way implication. -/
theorem parse_socks5_preempted_cex :
    (Matches.mk [] true false [115] [53, 51] [116] [49] Option.none Option.none
        (Option.some [117]) Option.none Option.none false).socks5_username.isSome
      ≠ (Matches.mk [] true false [115] [53, 51] [116] [49] Option.none Option.none
        (Option.some [117]) Option.none Option.none false).socks5_password.isSome ∧
    ConfigBuilder.parse (fun _ => Option.some 1080) (fun _ => Option.some 3)
      (fun _ => Option.none) (fun _ => 0)
      (Matches.mk [] true false [115] [53, 51] [116] [49] Option.none Option.none
        (Option.some [117]) Option.none Option.none false)
      = Except.error ConfigError.version ∧
    (Except.error ConfigError.version : Except ConfigError Config)
      ≠ Except.error ConfigError.socks5UsernameAndPassword := by
  exact ⟨by decide, rfl, by simp⟩

/-- Claim C10 witness: a concrete run of the amended theorem, with neither
SOCKS5 option supplied and `--allow-external-connection` present. -/
theorem parse_socks5_and_local_addr_inst :
    ∃ cfg, ConfigBuilder.parse (fun _ => Option.some 1080)
        (fun _ => Option.some 3) (fun _ => Option.none) (fun _ => 0)
        (Matches.mk [] false false [115] [53, 51] [116] [49] Option.none
          Option.none Option.none Option.none Option.none true)
        = Except.ok cfg ∧
      cfg.socks5_authentication = Socks5AuthenticationConfig.none ∧
      cfg.local_addr = SocketAddr.mk [0, 0, 0, 0] 1080 :=
  (parse_socks5_and_local_addr (fun _ => Option.some 1080)
    (fun _ => Option.some 3) (fun _ => Option.none) (fun _ => 0)
    (Matches.mk [] false false [115] [53, 51] [116] [49] Option.none
      Option.none Option.none Option.none Option.none true)
    1080 1080 rfl rfl rfl rfl (Or.inl rfl) (Or.inl rfl) rfl).2.1 rfl rfl

end Tuic
